import Mathlib

/-!
A shallow embedding of the task-manager repository (models/task.py,
repository/task_repository.py, service/task_service.py,
controller/task_controller.py) and proofs about the claims of its
specification.

Conventions used throughout:
* Python `datetime` values are modelled by `PyDateTime` (wall-clock time in
  microseconds since the proleptic-Gregorian epoch 0001-03-01, plus a UTC
  offset in microseconds).  Aware datetimes compare by instant
  (`wall - off`), exactly as Python compares aware datetimes.
* Python exceptions are modelled by the `Except PyErr` monad; an operation
  that mutates the JSON store returns the store it leaves behind
  explicitly, so `(Except PyErr α) × Store` is the result type of the
  stateful service operations.
* Python strings are Lean `String`s; `str.strip()`, `str.upper()` and
  `str.lower()` are the kernel-evaluable `pyStrip`/`pyUpper`/`pyLower`
  below (faithful on the ASCII range used by the enum values and format
  strings).
-/

namespace Todo

/-- `TaskStatus(str, Enum)` from models/task.py. -/
inductive TaskStatus where
  | PENDING
  | IN_PROGRESS
  | DONE
deriving DecidableEq, Repr

/-- `TaskPriority(str, Enum)` from models/task.py. -/
inductive TaskPriority where
  | LOW
  | MEDIUM
  | HIGH
deriving DecidableEq, Repr

/-- The exception kinds the embedded code can raise: the repository's
`ValidationError` and `TaskNotFoundError` (utils/errors.py, also redeclared in
controller/task_controller.py), plus Python's builtin `ValueError`, which
escapes from `TaskStatus(...)`/`TaskPriority(...)` value lookups on
non-member values inside `Task.from_dict`. -/
inductive PyErr where
  | validation (msg : String)
  | notFound (msg : String)
  | valueError (msg : String)
deriving DecidableEq, Repr

/-- The `.value` of a `TaskStatus` member (its string payload). -/
def TaskStatus.value : TaskStatus → String
  | .PENDING => "PENDING"
  | .IN_PROGRESS => "IN_PROGRESS"
  | .DONE => "DONE"

/-- Python `str()` applied to a `TaskStatus` member.  `TaskStatus` mixes
`str` into a plain `Enum`, so `EnumType` keeps `Enum.__str__`, which renders
the qualified member name `"TaskStatus.PENDING"`, not the payload value
(only `StrEnum`, unused here, would give `"PENDING"`). -/
def TaskStatus.pyStr : TaskStatus → String
  | .PENDING => "TaskStatus.PENDING"
  | .IN_PROGRESS => "TaskStatus.IN_PROGRESS"
  | .DONE => "TaskStatus.DONE"

/-- Value lookup `TaskStatus(v)` on a string: succeeds exactly on the three
member values, otherwise Python raises
`ValueError: '<v>' is not a valid TaskStatus`. -/
def TaskStatus.ofValue? (v : String) : Option TaskStatus :=
  if v = "PENDING" then some .PENDING
  else if v = "IN_PROGRESS" then some .IN_PROGRESS
  else if v = "DONE" then some .DONE
  else none

/-- The `.value` of a `TaskPriority` member. -/
def TaskPriority.value : TaskPriority → String
  | .LOW => "LOW"
  | .MEDIUM => "MEDIUM"
  | .HIGH => "HIGH"

/-- Python `str()` of a `TaskPriority` member (qualified name, see
`TaskStatus.pyStr`). -/
def TaskPriority.pyStr : TaskPriority → String
  | .LOW => "TaskPriority.LOW"
  | .MEDIUM => "TaskPriority.MEDIUM"
  | .HIGH => "TaskPriority.HIGH"

/-- Value lookup `TaskPriority(v)` on a string. -/
def TaskPriority.ofValue? (v : String) : Option TaskPriority :=
  if v = "LOW" then some .LOW
  else if v = "MEDIUM" then some .MEDIUM
  else if v = "HIGH" then some .HIGH
  else none

/-- An aware Python `datetime`: wall-clock reading in microseconds together
with the `tzinfo` UTC offset in microseconds.  Python compares aware
datetimes by instant, i.e. by `wall - off`. -/
structure PyDateTime where
  wall : Int
  off : Int
deriving DecidableEq, Repr

namespace PyDateTime

/-- The instant an aware datetime denotes (microseconds UTC). -/
def instant (d : PyDateTime) : Int := d.wall - d.off

/-- `a < b` on aware datetimes. -/
def ltb (a b : PyDateTime) : Bool := a.instant < b.instant

/-- `a <= b` on aware datetimes. -/
def leb (a b : PyDateTime) : Bool := a.instant ≤ b.instant

/-- `d.astimezone()` on an aware datetime: same instant, re-expressed in the
local timezone whose offset is `z`. -/
def astimezone (d : PyDateTime) (z : Int) : PyDateTime :=
  { wall := d.instant + z, off := z }

end PyDateTime

/-! ### Calendar arithmetic

`datetime.strptime`/`fromisoformat` build naive datetimes from broken-down
fields; we convert fields to a wall-clock microsecond count with the
standard civil-from-days computation so that datetime comparisons and
`datetime.max` are faithful. -/

/-- Number of days in a month of the proleptic Gregorian calendar. -/
def daysInMonth (y m : Nat) : Nat :=
  if m = 2 then
    if y % 4 = 0 ∧ (y % 100 ≠ 0 ∨ y % 400 = 0) then 29 else 28
  else if m = 4 ∨ m = 6 ∨ m = 9 ∨ m = 11 then 30
  else 31

/-- Days from 0000-03-01 to the civil date `y-m-d` (Hinnant's
`days_from_civil`, restricted to the positive years Python supports). -/
def daysFromCivil (y m d : Nat) : Int :=
  let yShift : Int := if m ≤ 2 then (y : Int) - 1 else (y : Int)
  let era : Int := yShift / 400
  let yoe : Int := yShift - era * 400
  let mp : Int := ((m : Int) + 9) % 12
  let doy : Int := (153 * mp + 2) / 5 + (d : Int) - 1
  let doe : Int := yoe * 365 + yoe / 4 - yoe / 100 + doy
  era * 146097 + doe

/-- Wall-clock microsecond count of the naive datetime
`y-m-d h:mi:s.micro`. -/
def naiveWall (y m d h mi s micro : Nat) : Int :=
  ((daysFromCivil y m d) * 86400 + (h : Int) * 3600 + (mi : Int) * 60 + (s : Int))
    * 1000000 + (micro : Int)

/-- The wall-clock reading of `datetime.max` =
`9999-12-31 23:59:59.999999`.  No Python datetime has a larger wall
reading. -/
def pyDatetimeMaxWall : Int := naiveWall 9999 12 31 23 59 59 999999

/-! ### `datetime.strptime` for the four fixed format strings

`_parse_due` (service/task_service.py and controller/task_controller.py)
tries the formats `%Y-%m-%d`, `%Y-%m-%d %H:%M`, `%Y-%m-%dT%H:%M` and
`%Y-%m-%dT%H:%M:%S` in order.  `strptime` matches `%Y` as one to four
digits, `%m`,`%d`,`%H`,`%M`,`%S` as one or two digits, requires the whole
input to be consumed, and then builds a `datetime`, which range-checks the
fields.  Because in each of the four formats every digit field is followed
by a non-digit literal or the end of input, greedy digit matching is
equivalent to the regex backtracking `strptime` performs. -/

/-- Broken-down fields of a naive datetime (seconds resolution). -/
structure NaiveDT where
  y : Nat
  m : Nat
  d : Nat
  hh : Nat
  mi : Nat
  ss : Nat
deriving DecidableEq, Repr

/-- Greedily take at least one and at most `maxN` leading decimal digits. -/
def takeDigits : Nat → List Char → Option (Nat × List Char)
  | _, [] => none
  | maxN, c :: cs =>
    if c.isDigit then
      let d0 := c.toNat - '0'.toNat
      match maxN with
      | 0 => none
      | 1 => some (d0, cs)
      | Nat.succ n =>
        match takeDigits n cs with
        | some (v, rest) =>
          -- widen while the next char is still a digit
          some (d0 * 10 ^ (cs.length - rest.length) + v, rest)
        | none => some (d0, cs)
    else none

/-- Expect one literal character. -/
def expectChar (c : Char) : List Char → Option (List Char)
  | [] => none
  | x :: xs => if x = c then some xs else none

/-- Range-check the broken-down fields exactly as `datetime(...)` does
(`strptime` raises `ValueError` either while matching or while
constructing; `_parse_due` treats both identically). -/
def NaiveDT.valid (f : NaiveDT) : Bool :=
  1 ≤ f.y && f.y ≤ 9999 && 1 ≤ f.m && f.m ≤ 12 && 1 ≤ f.d &&
    f.d ≤ daysInMonth f.y f.m && f.hh ≤ 23 && f.mi ≤ 59 && f.ss ≤ 59

/-- Match `%Y-%m-%d` against the whole input, leaving `rest` for a
following time part. -/
def matchDate (cs : List Char) : Option (Nat × Nat × Nat × List Char) := do
  let (y, cs) ← takeDigits 4 cs
  let cs ← expectChar '-' cs
  let (m, cs) ← takeDigits 2 cs
  let cs ← expectChar '-' cs
  let (d, cs) ← takeDigits 2 cs
  pure (y, m, d, cs)

/-- Match `%H:%M` (optionally followed by `:%S` when `withSec`). -/
def matchTime (withSec : Bool) (cs : List Char) :
    Option (Nat × Nat × Nat × List Char) := do
  let (hh, cs) ← takeDigits 2 cs
  let cs ← expectChar ':' cs
  let (mi, cs) ← takeDigits 2 cs
  if withSec then
    let cs ← expectChar ':' cs
    let (ss, cs) ← takeDigits 2 cs
    pure (hh, mi, ss, cs)
  else
    pure (hh, mi, 0, cs)

/-- `datetime.strptime(v, fmt)` for one of the four `_parse_due` formats,
selected by the separator between date and time (`none` = date only) and
by whether seconds are present. -/
def strptimeDue (sep : Option Char) (withSec : Bool) (v : String) :
    Option NaiveDT := do
  let (y, m, d, cs) ← matchDate v.toList
  let f ←
    match sep with
    | none =>
      if cs.isEmpty then some ⟨y, m, d, 0, 0, 0⟩ else none
    | some c => do
      let cs ← expectChar c cs
      let (hh, mi, ss, cs) ← matchTime withSec cs
      if cs.isEmpty then some ⟨y, m, d, hh, mi, ss⟩ else none
  if f.valid then some f else none

/-- The format list of `_parse_due`, tried in order. -/
def tryDueFormats (v : String) : Option NaiveDT :=
  (strptimeDue none false v).orElse fun _ =>
  (strptimeDue (some ' ') false v).orElse fun _ =>
  (strptimeDue (some 'T') false v).orElse fun _ =>
  strptimeDue (some 'T') true v

/-! ### `datetime.fromisoformat`

A model of CPython's `datetime.fromisoformat` on its dashed calendar
forms: `YYYY-MM-DD`, optionally followed by a single separator character
and `HH[:MM[:SS[.f{1..6}]]]`, optionally followed by an offset
`Z`/`±HH:MM[:SS]`.  (CPython 3.11+ also accepts basic forms without
dashes, week dates and comma fractions; none of the claims depends on
those, and every string this model accepts is accepted by CPython with
the same value.)  The result is a naive wall reading plus an optional
parsed offset. -/

/-- Take exactly `n` leading decimal digits (`fromisoformat` requires
zero-padded fields, unlike `strptime`). -/
def exactDigits : Nat → List Char → Option (Nat × List Char)
  | 0, cs => some (0, cs)
  | Nat.succ _, [] => none
  | Nat.succ n, c :: cs =>
    if c.isDigit then
      (exactDigits n cs).map fun (v, rest) =>
        ((c.toNat - '0'.toNat) * 10 ^ n + v, rest)
    else none

/-- Parse a fraction `.f{1..6}` into microseconds. -/
def parseFraction : List Char → Option (Nat × List Char)
  | '.' :: cs => do
    let (v, rest) ← takeDigits 6 cs
    let nd := cs.length - rest.length
    if nd = 0 then none else some (v * 10 ^ (6 - nd), rest)
  | cs => some (0, cs)

/-- Parse an ISO offset suffix: empty (naive), `Z`, or `±HH:MM[:SS]`.
Returns the offset in microseconds, `none` when naive. -/
def parseOffset : List Char → Option (Option Int)
  | [] => some none
  | ['Z'] => some (some 0)
  | c :: cs =>
    if c = '+' ∨ c = '-' then do
      let (hh, cs) ← exactDigits 2 cs
      let cs ← expectChar ':' cs
      let (mi, cs) ← exactDigits 2 cs
      let (ss, cs) ←
        match cs with
        | ':' :: cs' => exactDigits 2 cs'
        | [] => pure (0, ([] : List Char))
        | _ => none
      if cs.isEmpty ∧ hh ≤ 23 ∧ mi ≤ 59 ∧ ss ≤ 59 then
        let mag : Int := ((hh : Int) * 3600 + (mi : Int) * 60 + (ss : Int)) * 1000000
        some (some (if c = '-' then -mag else mag))
      else none
    else none

/-- `datetime.fromisoformat(v)` (see the scope note above): wall reading in
microseconds plus the optional offset. -/
def fromisoformat (v : String) : Option (Int × Option Int) := do
  let cs := v.toList
  let (y, cs) ← exactDigits 4 cs
  let cs ← expectChar '-' cs
  let (m, cs) ← exactDigits 2 cs
  let cs ← expectChar '-' cs
  let (d, cs) ← exactDigits 2 cs
  if ¬(1 ≤ y ∧ 1 ≤ m ∧ m ≤ 12 ∧ 1 ≤ d ∧ d ≤ daysInMonth y m) then
    none
  else
    match cs with
    | [] => some (naiveWall y m d 0 0 0 0, none)
    | _sep :: cs => do
      let (hh, cs) ← exactDigits 2 cs
      let (mi, cs) ←
        match cs with
        | ':' :: cs' => exactDigits 2 cs'
        | _ => pure (0, cs)
      let (ss, cs) ←
        match cs with
        | ':' :: cs' => exactDigits 2 cs'
        | _ => pure (0, cs)
      let (micro, cs) ← parseFraction cs
      let off ← parseOffset cs
      if hh ≤ 23 ∧ mi ≤ 59 ∧ ss ≤ 59 then
        some (naiveWall y m d hh mi ss micro, off)
      else none

/-- Attach/convert to the local timezone `z` as `.astimezone()` does: a
naive result is interpreted as local wall time; an aware one is converted
by instant. -/
def isoToLocal (z : Int) : Int × Option Int → PyDateTime
  | (wall, none) => { wall := wall, off := z }
  | (wall, some off) => PyDateTime.astimezone { wall := wall, off := off } z

/-! ### String helpers

Kernel-evaluable models of the Python string methods the code uses
(`strip`, `upper`, `lower`), faithful on the ASCII range the enum values,
format strings and examples live in. -/

/-- ASCII lower-casing of one character (`str.lower` per character). -/
def pyLowerChar (c : Char) : Char :=
  if 'A' ≤ c ∧ c ≤ 'Z' then Char.ofNat (c.toNat + 32) else c

/-- ASCII upper-casing of one character (`str.upper` per character). -/
def pyUpperChar (c : Char) : Char :=
  if 'a' ≤ c ∧ c ≤ 'z' then Char.ofNat (c.toNat - 32) else c

/-- `str.lower()`. -/
def pyLower (s : String) : String := ⟨s.toList.map pyLowerChar⟩

/-- `str.upper()`. -/
def pyUpper (s : String) : String := ⟨s.toList.map pyUpperChar⟩

/-- `str.strip()`: drop leading and trailing whitespace. -/
def pyStrip (s : String) : String :=
  ⟨((s.toList.dropWhile Char.isWhitespace).reverse.dropWhile
      Char.isWhitespace).reverse⟩

/-! ### Validation helpers

`_parse_priority` and `_parse_status` are textually identical in
`TaskService` and `TaskController`; they are defined once here.
`_parse_due` differs between the two classes around empty input and is
defined twice. -/

/-- `_parse_priority`: `None` → MEDIUM; otherwise value lookup on the
upper-cased string, `ValidationError` on failure. -/
def parse_priority : Option String → Except PyErr TaskPriority
  | none => .ok .MEDIUM
  | some value =>
    match TaskPriority.ofValue? (pyUpper value) with
    | some p => .ok p
    | none => .error (.validation ("Invalid priority: " ++ value))

/-- `_parse_status`: `None` → PENDING; otherwise value lookup on the
upper-cased string, `ValidationError` on failure. -/
def parse_status : Option String → Except PyErr TaskStatus
  | none => .ok .PENDING
  | some value =>
    match TaskStatus.ofValue? (pyUpper value) with
    | some s => .ok s
    | none => .error (.validation ("Invalid status: " ++ value))

/-- The loop over the four `strptime` formats followed by the
`fromisoformat` attempt, shared by both `_parse_due` bodies.  `value` is
the original argument (used in the error message), `v` the stripped
string; `z` is the local-timezone offset that `.astimezone()` attaches. -/
def dueFormatsParse (z : Int) (value v : String) : Except PyErr PyDateTime :=
  match tryDueFormats v with
  | some f => .ok { wall := naiveWall f.y f.m f.d f.hh f.mi f.ss 0, off := z }
  | none =>
    match fromisoformat v with
    | some r => .ok (isoToLocal z r)
    | none => .error (.validation ("Invalid due date: " ++ value))

/-- `TaskService._parse_due` (service/task_service.py): `if not value:
return None` treats only `None` and the empty string as "no due date";
a whitespace-only string falls through, strips to `""`, fails every
format and raises `ValidationError`. -/
def TaskService.parse_due (z : Int) (value : Option String) :
    Except PyErr (Option PyDateTime) :=
  match value with
  | none => .ok none
  | some value =>
    if value = "" then .ok none
    else (dueFormatsParse z value (pyStrip value)).map some

/-- `TaskController._parse_due` (controller/task_controller.py): strips
first and returns "no due date" whenever the stripped string is empty,
so whitespace-only input is not an error here. -/
def TaskController.parse_due (z : Int) (value : Option String) :
    Except PyErr (Option PyDateTime) :=
  match value with
  | none => .ok none
  | some value =>
    let v := (pyStrip value)
    if v = "" then .ok none
    else (dueFormatsParse z value v).map some

/-! ### The Task model and its (de)serialization -/

/-- The task record.  The source has `class Task` and
`class DeadlineTask(Task)` whose only datum beyond `Task` is `due_date`
(a `DeadlineTask` always carries one); a task is embedded as one record
with `due_date : Option PyDateTime`, `isSome` exactly for
`DeadlineTask`s — the representation §3 of the spec itself prescribes. -/
structure Task where
  id : Int
  title : String
  description : Option String := none
  status : TaskStatus := .PENDING
  priority : TaskPriority := .MEDIUM
  tags : List String := []
  created_at : PyDateTime
  due_date : Option PyDateTime := none
deriving DecidableEq, Repr

/-- The `TYPE` discriminator field: `"Task"` on the base class,
`"DeadlineTask"` on the subclass. -/
def Task.TYPE (t : Task) : String :=
  if t.due_date.isSome then "DeadlineTask" else "Task"

/-- The data an `ISO_FMT` (`%Y-%m-%dT%H:%M:%S%z`) string determines: the
wall-clock reading truncated to whole seconds, and the offset.
`strftime` formats exactly this; `strptime` with the same format reads it
back. -/
structure IsoDT where
  wallSec : Int
  off : Int
deriving DecidableEq, Repr

/-- `dt.strftime(ISO_FMT)`: seconds precision, microseconds dropped. -/
def PyDateTime.strftimeIso (d : PyDateTime) : IsoDT :=
  { wallSec := d.wall - d.wall % 1000000, off := d.off }

/-- `datetime.strptime(s, ISO_FMT)` on a string produced by `strftime`. -/
def IsoDT.strptimeIso (s : IsoDT) : PyDateTime :=
  { wall := s.wallSec, off := s.off }

/-- A serialized task record (the JSON object written by `to_dict` /
read by `from_dict`).  `dataclasses.asdict` emits the `TYPE` field as
well as the `type` key `to_dict` adds.  Timestamp strings are modelled by
`IsoDT` (`none` for an absent key; absent, empty and non-ISO strings all
make `_parse_dt` fall back to "now", so `none` covers them). -/
structure TaskDict where
  id : Int
  title : String
  description : Option String
  status : Option String
  priority : Option String
  tags : List String
  created_at : Option IsoDT
  TYPE : String
  type : Option String
  due_date : Option IsoDT
deriving DecidableEq, Repr

/-- `_parse_dt` (models/task.py): falsy or unparseable input → `now`
(the silent fallback §9 of the spec flags); otherwise the parsed
timestamp. -/
def parse_dt (now : PyDateTime) : Option IsoDT → PyDateTime
  | none => now
  | some s => s.strptimeIso

/-- `Task.to_dict` / `DeadlineTask.to_dict`: `asdict` of all fields, then
`created_at`/`due_date` formatted with `ISO_FMT`, `status` and `priority`
overwritten with `str(...)` of the enum member — which is the qualified
name `"TaskStatus.PENDING"`, not the value — and the `type`
discriminator added. -/
def Task.to_dict (t : Task) : TaskDict :=
  { id := t.id
    title := t.title
    description := t.description
    status := some t.status.pyStr
    priority := some t.priority.pyStr
    tags := t.tags
    created_at := some t.created_at.strftimeIso
    TYPE := t.TYPE
    type := some t.TYPE
    due_date := t.due_date.map PyDateTime.strftimeIso }

/-- The `"status": TaskStatus(data.get("status", TaskStatus.PENDING))`
entry of the `common` dict: the default is the member itself, which the
value lookup maps to itself; a non-member string raises `ValueError`. -/
def statusEntry : Option String → Except PyErr TaskStatus
  | none => .ok .PENDING
  | some v =>
    match TaskStatus.ofValue? v with
    | some s => .ok s
    | none => .error (.valueError ("'" ++ v ++ "' is not a valid TaskStatus"))

/-- The `"priority": TaskPriority(data.get("priority",
TaskPriority.MEDIUM))` entry of the `common` dict. -/
def priorityEntry : Option String → Except PyErr TaskPriority
  | none => .ok .MEDIUM
  | some v =>
    match TaskPriority.ofValue? v with
    | some p => .ok p
    | none => .error (.valueError ("'" ++ v ++ "' is not a valid TaskPriority"))

/-- `Task.from_dict`: chooses the class from the `type` discriminator
(default `"Task"`; anything else means `DeadlineTask`), then builds the
`common` dict — whose entries are evaluated in literal order, so the
`TaskStatus(...)` lookup runs before the `TaskPriority(...)` one, and
either raises `ValueError` on a non-member string — and constructs the
task. -/
def Task.from_dict (now : PyDateTime) (data : TaskDict) : Except PyErr Task :=
  let task_type := data.type.getD "Task"
  match statusEntry data.status with
  | .error e => .error e
  | .ok status =>
    match priorityEntry data.priority with
    | .error e => .error e
    | .ok priority =>
      let created := parse_dt now data.created_at
      if task_type = "Task" then
        .ok { id := data.id, title := data.title, description := data.description,
              status := status, priority := priority, tags := data.tags,
              created_at := created, due_date := none }
      else
        .ok { id := data.id, title := data.title, description := data.description,
              status := status, priority := priority, tags := data.tags,
              created_at := created,
              due_date := some (parse_dt now data.due_date) }

/-! ### The JSON repository (repository/task_repository.py)

The store is the parsed content of the JSON file: a list of serialized
records.  Operations that write return the store they leave behind; an
exception leaves the file exactly as it was, since `_write_all_raw` is
the only writer and each method calls it at most once, after all checks. -/

/-- The JSON store contents. -/
abbrev Store := List TaskDict

namespace TaskRepository

/-- `next_id`: `max(int(d.get("id", 0)) for d in items) + 1`, or 1 when
`max` raises `ValueError` on an empty sequence. -/
def next_id (items : Store) : Int :=
  match items.map TaskDict.id with
  | [] => 1
  | x :: xs => xs.foldl max x + 1

/-- `list_all`: deserialize every record (a `ValueError` from
`Task.from_dict` propagates). -/
def list_all (now : PyDateTime) (items : Store) : Except PyErr (List Task) :=
  items.mapM (Task.from_dict now)

/-- `get`: deserialize the first record with the given id, else
`TaskNotFoundError`. -/
def get (now : PyDateTime) (items : Store) (task_id : Int) : Except PyErr Task :=
  match items.find? (fun d => d.id == task_id) with
  | some d => Task.from_dict now d
  | none => .error (.notFound ("Task #" ++ toString task_id ++ " not found"))

/-- `add`: append the serialized task and write. -/
def add (items : Store) (task : Task) : Store :=
  items ++ [task.to_dict]

/-- The replacement loop of `update`: replace the first record sharing
the task's id, `none` when there is none. -/
def updateItems (task : Task) : Store → Option Store
  | [] => none
  | d :: ds =>
    if d.id == task.id then some (task.to_dict :: ds)
    else (updateItems task ds).map (d :: ·)

/-- `update`: replace the record sharing `task.id` and write, else
`TaskNotFoundError` (nothing written). -/
def update (items : Store) (task : Task) : Except PyErr Store :=
  match updateItems task items with
  | some items' => .ok items'
  | none => .error (.notFound ("Task #" ++ toString task.id ++ " not found"))

/-- `delete`: drop every record with the given id; report whether the
list shrank, writing only when it did. -/
def delete (items : Store) (task_id : Int) : Bool × Store :=
  let new_items := items.filter (fun d => !(d.id == task_id))
  if new_items.length = items.length then (false, items)
  else (true, new_items)

end TaskRepository

/-! ### The task service (service/task_service.py)

Each mutating operation returns `(outcome, store left behind)`; the
store changes only through the single repository write each success path
performs, after every validation step, mirroring the source order. -/

namespace TaskService

/-- The validation/construction part of `create_task`, in source order:
title check, priority parse, due parse, tag listing, id assignment,
record construction.  `description or None` turns an empty string into
`None`. -/
def createCore (z : Int) (now : PyDateTime) (items : Store) (title : String)
    (description priority due : Option String) (tags : Option (List String)) :
    Except PyErr Task := do
  if title = "" ∨ (pyStrip title) = "" then
    throw (.validation "Title cannot be empty")
  let prio ← parse_priority priority
  let due_dt ← TaskService.parse_due z due
  let tag_list := tags.getD []
  let new_id := TaskRepository.next_id items
  let descr : Option String := match description with | some "" => none | d => d
  match due_dt with
  | some dd =>
    pure { id := new_id, title := (pyStrip title), description := descr,
           status := .PENDING, priority := prio, tags := tag_list,
           created_at := now, due_date := some dd }
  | none =>
    pure { id := new_id, title := (pyStrip title), description := descr,
           status := .PENDING, priority := prio, tags := tag_list,
           created_at := now, due_date := none }

/-- `create_task`: on success the new record is appended to the store;
any validation failure leaves the store untouched. -/
def create_task (z : Int) (now : PyDateTime) (items : Store) (title : String)
    (description priority due : Option String) (tags : Option (List String)) :
    Except PyErr Task × Store :=
  match createCore z now items title description priority due tags with
  | .ok task => (.ok task, TaskRepository.add items task)
  | .error e => (.error e, items)

/-- The load/validate/rebuild part of `update_task`, in source order:
load, title, priority, status, tags, the due-driven promotion/demotion,
the `replace(...)` of the scalar fields, and the second due
application. -/
def updateCore (z : Int) (now : PyDateTime) (items : Store) (task_id : Int)
    (title description priority due status : Option String)
    (tags : Option (List String)) : Except PyErr Task := do
  let task ← TaskRepository.get now items task_id
  let new_title := match title with | some s => pyStrip s | none => task.title
  if new_title = "" then
    throw (.validation "Title cannot be empty")
  let new_desc := match description with | some d => some d | none => task.description
  let new_prio ← match priority with
    | some _ => parse_priority priority
    | none => pure task.priority
  let new_status ← match status with
    | some _ => parse_status status
    | none => pure task.status
  let new_tags := match tags with | some l => l | none => task.tags
  let task ←
    match due with
    | none => pure task
    | some _ => do
      let due_dt ← TaskService.parse_due z due
      match due_dt, task.due_date with
      | some dd, none => pure { task with due_date := some dd }
      | none, some _ => pure { task with due_date := none }
      | _, _ => pure task
  let updated :=
    { task with
      title := new_title
      description := new_desc
      priority := new_prio
      status := new_status
      tags := new_tags }
  match updated.due_date, due with
  | some _, some _ => do
    let due_dt ← TaskService.parse_due z due
    match due_dt with
    | some dd => pure { updated with due_date := some dd }
    | none => pure updated
  | _, _ => pure updated

/-- `update_task`: every failure happens before the single repository
write, so a failing update leaves the store as it was. -/
def update_task (z : Int) (now : PyDateTime) (items : Store) (task_id : Int)
    (title description priority due status : Option String)
    (tags : Option (List String)) : Except PyErr Task × Store :=
  match updateCore z now items task_id title description priority due status tags with
  | .error e => (.error e, items)
  | .ok updated =>
    match TaskRepository.update items updated with
    | .ok items' => (.ok updated, items')
    | .error e => (.error e, items)

/-- `set_status`: load, parse the new status, `replace(task,
status=...)`, persist. -/
def set_status (now : PyDateTime) (items : Store) (task_id : Int)
    (status : Option String) : Except PyErr Task × Store :=
  match TaskRepository.get now items task_id with
  | .error e => (.error e, items)
  | .ok task =>
    match parse_status status with
    | .error e => (.error e, items)
    | .ok st =>
      match TaskRepository.update items { task with status := st } with
      | .ok items' => (.ok { task with status := st }, items')
      | .error e => (.error e, items)

/-- `complete_task`: `set_status(task_id, TaskStatus.DONE.value)`. -/
def complete_task (now : PyDateTime) (items : Store) (task_id : Int) :
    Except PyErr Task × Store :=
  set_status now items task_id (some TaskStatus.DONE.value)

/-- `delete_task`: delegates to the repository. -/
def delete_task (items : Store) (task_id : Int) : Bool × Store :=
  TaskRepository.delete items task_id

end TaskService

/-! ### The query engine (body of `TaskService.list_tasks` after
`tasks = self.repo.list_all()`; `TaskController.list` runs the identical
code over its in-memory collection). -/

/-- The priority rank used for sorting: `{HIGH: 0, MEDIUM: 1, LOW: 2}`
(`order.get(t.priority, 1)` — the default 1 is unreachable since the
dict covers every member). -/
def priorityRank : TaskPriority → Nat
  | .HIGH => 0
  | .MEDIUM => 1
  | .LOW => 2

/-- The `due` sort key: the task's due date, or
`datetime.max.replace(tzinfo=t.created_at.tzinfo)` when it has none. -/
def dueKey (t : Task) : PyDateTime :=
  match t.due_date with
  | some d => d
  | none => { wall := pyDatetimeMaxWall, off := t.created_at.off }

/-- Does `needle` occur as a contiguous run inside `hay`?  (Python's
substring test `needle in hay` / `hay.find(needle) >= 0`.) -/
def containsSeq : List Char → List Char → Bool
  | _, [] => true
  | [], _ :: _ => false
  | c :: rest, needle =>
    needle.isPrefixOf (c :: rest) || containsSeq rest needle

/-- Substring containment on strings. -/
def strContains (hay needle : String) : Bool :=
  containsSeq hay.toList needle.toList

/-- The free-text search predicate: case-insensitive substring match
against the title or the description (`t.description or ""`). -/
def searchPred (s : String) (t : Task) : Bool :=
  strContains (pyLower t.title) s || strContains (pyLower (t.description.getD "")) s

/-- The overdue predicate: is a `DeadlineTask`, not DONE, due strictly
before `now`. -/
def overduePred (now : PyDateTime) (t : Task) : Bool :=
  match t.due_date with
  | some d => decide (t.status ≠ .DONE) && PyDateTime.ltb d now
  | none => false

/-- The `if status:` block of `list_tasks`/`list`: skipped for an absent
or empty (falsy) argument, otherwise parse and keep the equal-status
tasks. -/
def statusStage (status : Option String) (tasks : List Task) :
    Except PyErr (List Task) :=
  match status with
  | none => .ok tasks
  | some s =>
    if s = "" then .ok tasks
    else
      match parse_status (some s) with
      | .ok st => .ok (tasks.filter (fun t => decide (t.status = st)))
      | .error e => .error e

/-- The `if priority:` block. -/
def priorityStage (priority : Option String) (tasks : List Task) :
    Except PyErr (List Task) :=
  match priority with
  | none => .ok tasks
  | some s =>
    if s = "" then .ok tasks
    else
      match parse_priority (some s) with
      | .ok pr => .ok (tasks.filter (fun t => decide (t.priority = pr)))
      | .error e => .error e

/-- The `if tag:` block: literal membership in the tag list. -/
def tagStage (tag : Option String) (tasks : List Task) : List Task :=
  match tag with
  | none => tasks
  | some s => if s = "" then tasks else tasks.filter (fun t => t.tags.contains s)

/-- The `if search:` block: the needle is lower-cased once. -/
def searchStage (search : Option String) (tasks : List Task) : List Task :=
  match search with
  | none => tasks
  | some s => if s = "" then tasks else tasks.filter (searchPred (pyLower s))

/-- The `if overdue:` block. -/
def overdueStage (now : PyDateTime) (overdue : Bool) (tasks : List Task) :
    List Task :=
  if overdue then tasks.filter (overduePred now) else tasks

/-- The five conjunctive filters, applied in source order. -/
def applyFilters (now : PyDateTime) (status priority tag search : Option String)
    (overdue : Bool) (tasks : List Task) : Except PyErr (List Task) :=
  match statusStage status tasks with
  | .error e => .error e
  | .ok tasks =>
    match priorityStage priority tasks with
    | .error e => .error e
    | .ok tasks =>
      .ok (overdueStage now overdue (searchStage search (tagStage tag tasks)))

/-- The sort step: Python's stable ascending `list.sort(key=...)` is a
stable merge sort whose "precedes" relation on elements `a, b` is
"not (key(b) < key(a))". -/
def applySort (tasks : List Task) : Option String → Except PyErr (List Task)
  | none => pure tasks
  | some sort =>
    if sort = "" then pure tasks
    else
      let key := pyLower sort
      if key = "id" then
        pure (tasks.mergeSort (fun a b => !decide (b.id < a.id)))
      else if key = "created" then
        pure (tasks.mergeSort (fun a b => !PyDateTime.ltb b.created_at a.created_at))
      else if key = "priority" then
        pure (tasks.mergeSort
          (fun a b => !decide (priorityRank b.priority < priorityRank a.priority)))
      else if key = "due" then
        pure (tasks.mergeSort (fun a b => !PyDateTime.ltb (dueKey b) (dueKey a)))
      else if key = "title" then
        pure (tasks.mergeSort (fun a b => !decide (pyLower b.title < pyLower a.title)))
      else .error (.validation ("Unknown sort key: " ++ sort))

/-- The filtering-and-sorting pipeline `list_tasks`/`list` run over an
in-memory task list. -/
def listTasksOn (now : PyDateTime) (tasks : List Task)
    (status priority tag : Option String) (overdue : Bool)
    (search sort : Option String) : Except PyErr (List Task) :=
  match applyFilters now status priority tag search overdue tasks with
  | .error e => .error e
  | .ok tasks => applySort tasks sort

/-- `TaskService.list_tasks`: load everything from the repository, then
filter and sort. -/
def TaskService.list_tasks (now : PyDateTime) (items : Store)
    (status priority tag : Option String) (overdue : Bool)
    (search sort : Option String) : Except PyErr (List Task) :=
  match TaskRepository.list_all now items with
  | .error e => .error e
  | .ok tasks => listTasksOn now tasks status priority tag overdue search sort

/-! ### `stats` (identical in `TaskService.stats` and
`TaskController.stats`, over the respective collection). -/

/-- The result shape of `stats`: the breakdown dicts are modelled as the
insertion-ordered key/count lists Python builds. -/
structure Stats where
  total : Nat
  by_status : List (String × Nat)
  by_priority : List (String × Nat)
deriving DecidableEq, Repr

/-- Enum iteration order of `TaskStatus`. -/
def allStatuses : List TaskStatus := [.PENDING, .IN_PROGRESS, .DONE]

/-- Enum iteration order of `TaskPriority`. -/
def allPriorities : List TaskPriority := [.LOW, .MEDIUM, .HIGH]

/-- `m[k] += 1` on a dict modelled as a key/count list (keys are unique
by construction). -/
def bumpCount (m : List (String × Nat)) (k : String) : List (String × Nat) :=
  m.map (fun p => if p.1 = k then (p.1, p.2 + 1) else p)

/-- `stats`: dicts pre-seeded with every enum value at 0, then one pass
over the tasks incrementing both counters. -/
def statsOn (tasks : List Task) : Stats :=
  let init := (allStatuses.map (fun s => (s.value, 0)),
               allPriorities.map (fun p => (p.value, 0)))
  let folded := tasks.foldl
    (fun (acc : List (String × Nat) × List (String × Nat)) t =>
      (bumpCount acc.1 t.status.value, bumpCount acc.2 t.priority.value)) init
  { total := tasks.length, by_status := folded.1, by_priority := folded.2 }

/-! ### The in-memory controller (controller/task_controller.py)

Its task table is a Python dict keyed by id: insertion-ordered, and
assigning an existing key replaces the value in place. -/

/-- The controller's `_tasks` dict. -/
abbrev CtrlTasks := List (Int × Task)

/-- `self._tasks[k]` lookup. -/
def ctrlLookup (m : CtrlTasks) (k : Int) : Option Task :=
  (m.find? (fun p => p.1 == k)).map (·.2)

/-- `self._tasks[k] = v`: replace in place, or append a new key. -/
def ctrlInsert (m : CtrlTasks) (k : Int) (v : Task) : CtrlTasks :=
  if m.any (fun p => p.1 == k) then
    m.map (fun p => if p.1 == k then (k, v) else p)
  else m ++ [(k, v)]

/-- `TaskController.set_status`: `_require` (a failed lookup raises
`TaskNotFoundError`), parse, `replace(task, status=...)`, store back
under `task.id`. -/
def TaskController.set_status (m : CtrlTasks) (task_id : Int)
    (status : Option String) : Except PyErr Task × CtrlTasks :=
  match ctrlLookup m task_id with
  | none => (.error (.notFound ("Task #" ++ toString task_id ++ " not found")), m)
  | some task =>
    match parse_status status with
    | .error e => (.error e, m)
    | .ok st =>
      (.ok { task with status := st },
       ctrlInsert m ({ task with status := st }).id { task with status := st })

/-- `TaskController.complete`: `set_status(task_id, TaskStatus.DONE.value)`. -/
def TaskController.complete (m : CtrlTasks) (task_id : Int) :
    Except PyErr Task × CtrlTasks :=
  TaskController.set_status m task_id (some TaskStatus.DONE.value)

/-! ## Fixtures for the concrete example theorems -/

/-- A fixed reference instant (offset 0). -/
def dt0 : PyDateTime := { wall := 0, off := 0 }

/-- A minimal plain task. -/
def taskA : Task := { id := 1, title := "a", created_at := dt0 }

/-- The id of the task a `create` returned (0 for a failure). -/
def createdId (r : Except PyErr Task × Store) : Int :=
  match r.1 with
  | .ok t => t.id
  | .error _ => 0

/-- Whether an operation outcome succeeded. -/
def opOk : Except PyErr Task → Bool
  | .ok _ => true
  | .error _ => false

/-- Store after creating a task titled "a" in an empty store. -/
def c1Store1 : Store :=
  (TaskService.create_task 0 dt0 [] "a" none none none none).2

/-- Outcome of then creating a task titled "b". -/
def c1Create2 : Except PyErr Task × Store :=
  TaskService.create_task 0 dt0 c1Store1 "b" none none none none

/-- Outcome of then deleting task 2. -/
def c1Delete : Bool × Store := TaskRepository.delete c1Create2.2 2

/-- Outcome of then creating a task titled "c". -/
def c1Create3 : Except PyErr Task × Store :=
  TaskService.create_task 0 dt0 c1Delete.2 "c" none none none none

/-! ## Claims -/

/-- **C2.**  Claimed: serializing any task (plain or deadline) to its
persisted dictionary form and parsing it back yields an equal task, with
the correct `type` discriminator.  In fact the round-trip fails for every
task: `to_dict` stores `str(self.status)`, which is the qualified enum
name `"TaskStatus.…"` (a `(str, Enum)` class keeps `Enum.__str__`), and
the `TaskStatus(...)` value lookup in `from_dict` rejects that string, so
parsing the persisted form of any task raises `ValueError` instead of
returning a task.  (`from_dict` itself expects plain values: it accepts
`"PENDING"`; the spec's intent is clear and `to_dict` is the slip.  Even
apart from this, `strftime(ISO_FMT)` drops microseconds, so `created_at`
would not round-trip exactly either.) -/
theorem from_dict_to_dict_raises (t : Task) (now : PyDateTime) :
    Task.from_dict now t.to_dict =
      .error (.valueError ("'" ++ t.status.pyStr ++ "' is not a valid TaskStatus")) := by
  cases t with
  | mk id title description status priority tags created_at due_date =>
    cases status <;> rfl

/-- **C3.**  Claimed: due-date parsing returns "no due date" without
raising for every `None`, empty, or whitespace-only input.  The service
parser's emptiness test `if not value:` misses whitespace-only strings:
`" "` is truthy, strips to `""`, fails all four formats and the ISO
parse, and raises `ValidationError("Invalid due date:  ")` — while the
controller's copy of the same helper, which strips before testing,
returns "no due date" exactly as the spec says, showing the intent. -/
theorem parse_due_whitespace_raises :
    (∀ z : Int, TaskService.parse_due z (some " ") =
        .error (.validation "Invalid due date:  ")) ∧
    (∀ z : Int, TaskController.parse_due z (some " ") = .ok none) ∧
    (∀ z : Int, TaskService.parse_due z none = .ok none) ∧
    (∀ z : Int, TaskService.parse_due z (some "") = .ok none) :=
  ⟨fun _ => rfl, fun _ => rfl, fun _ => rfl, fun _ => rfl⟩

/-- **C1 (counterexample).**  Claimed: an id, once assigned, is never
assigned to a later-created task, even after the task that held it is
deleted.  Against the JSON repository this fails: `next_id` is
`max(ids) + 1`, so after create (id 1), create (id 2), delete 2, the
next create is assigned id 2 again. -/
theorem id_reused_after_delete :
    createdId c1Create2 = 2 ∧ c1Delete.1 = true ∧ createdId c1Create3 = 2 :=
  ⟨rfl, rfl, rfl⟩

/-- An initial segment never exceeds the running maximum a `foldl max`
computes. -/
theorem foldlMax_init (x : Int) (xs : List Int) : x ≤ xs.foldl max x := by
  induction xs generalizing x with
  | nil => exact le_refl x
  | cons y ys ih => exact le_trans (le_max_left x y) (ih (max x y))

/-- Every listed value is bounded by the `foldl max`. -/
theorem foldlMax_mem (xs : List Int) (x a : Int) (h : a ∈ xs) :
    a ≤ xs.foldl max x := by
  induction xs generalizing x with
  | nil => cases h
  | cons y ys ih =>
    rcases List.mem_cons.mp h with rfl | h'
    · exact le_trans (le_max_right x a) (foldlMax_init _ _)
    · exact ih (max x y) h'

/-- **C1 (amended).**  At creation the repository assigns
`next_id`, which is strictly greater than every id currently in the
store — so ids are unique among live tasks and increase monotonically
across creations with no intervening deletion — but after the task
holding the maximum id is deleted, that id is reassigned to the next
created task (see the counterexample). -/
theorem next_id_gt_live (items : Store) :
    ∀ d ∈ items, d.id < TaskRepository.next_id items := by
  intro d hd
  cases items with
  | nil => cases hd
  | cons i is =>
    show d.id < (is.map TaskDict.id).foldl max i.id + 1
    have : d.id ≤ (is.map TaskDict.id).foldl max i.id := by
      rcases List.mem_cons.mp hd with rfl | h'
      · exact foldlMax_init _ _
      · exact foldlMax_mem _ _ _ (List.mem_map_of_mem _ h')
    omega

/-- Witness for **C1 (amended)** at a one-record store. -/
theorem next_id_gt_live_witness :
    taskA.to_dict ∈ [taskA.to_dict] ∧
      (taskA.to_dict).id < TaskRepository.next_id [taskA.to_dict] :=
  ⟨List.mem_singleton.mpr rfl,
   next_id_gt_live [taskA.to_dict] taskA.to_dict (List.mem_singleton.mpr rfl)⟩

/-- An operation that runs a pure validation/rebuild phase and then a
single repository write either succeeds or leaves the store as given:
the shape shared by `update_task` and `set_status`. -/
theorem writeWrap_atomic (items : Store) (core : Except PyErr Task)
    (g : Task → Except PyErr Store) :
    opOk (match core with
      | .error e => (Except.error e, items)
      | .ok u =>
        match g u with
        | .ok items' => (Except.ok u, items')
        | .error e => (Except.error e, items)).1 = true ∨
    (match core with
      | .error e => (Except.error e, items)
      | .ok u =>
        match g u with
        | .ok items' => (Except.ok u, items')
        | .error e => (Except.error e, items)).2 = items := by
  cases core with
  | error e => exact Or.inr rfl
  | ok u =>
    cases hg : g u with
    | ok items' => simp [hg, opOk]
    | error e => simp [hg]

/-- Same for the validate-then-append shape of `create_task`. -/
theorem addWrap_atomic (items : Store) (core : Except PyErr Task) :
    opOk (match core with
      | .ok task => (Except.ok task, TaskRepository.add items task)
      | .error e => (Except.error e, items)).1 = true ∨
    (match core with
      | .ok task => (Except.ok task, TaskRepository.add items task)
      | .error e => (Except.error e, items)).2 = items := by
  cases core with
  | error e => exact Or.inr rfl
  | ok u => exact Or.inl rfl

/-- **C4.**  Claimed: every operation completes or fails with a
`ValidationError` or `TaskNotFoundError`, leaving the stored collection
unchanged.  The unchanged-store half holds for every mutating service
operation (each writes at most once, after all validation).  But the
error-taxonomy half fails: on any store the code itself has populated,
`update_task` — like every record-loading operation — fails with a
`ValueError` escaping from `Task.from_dict`, outside the claimed
taxonomy, because `to_dict` wrote the status as `"TaskStatus.PENDING"`
(the C2 slip); the store is still left unchanged. -/
theorem ops_atomic_but_update_raises_valueerror :
    (TaskService.update_task 0 dt0 [taskA.to_dict] 1 (some "b") none none none
        none none =
      (.error (.valueError "'TaskStatus.PENDING' is not a valid TaskStatus"),
       [taskA.to_dict])) ∧
    (∀ z now items task_id title description priority due status tags,
      opOk (TaskService.update_task z now items task_id title description
          priority due status tags).1 = true ∨
        (TaskService.update_task z now items task_id title description priority
          due status tags).2 = items) ∧
    (∀ z now items title description priority due tags,
      opOk (TaskService.create_task z now items title description priority due
          tags).1 = true ∨
        (TaskService.create_task z now items title description priority due
          tags).2 = items) ∧
    (∀ now items task_id status,
      opOk (TaskService.set_status now items task_id status).1 = true ∨
        (TaskService.set_status now items task_id status).2 = items) := by
  refine ⟨rfl, ?_, ?_, ?_⟩
  · intro z now items task_id title description priority due status tags
    exact writeWrap_atomic items
      (TaskService.updateCore z now items task_id title description priority due
        status tags) (fun u => TaskRepository.update items u)
  · intro z now items title description priority due tags
    exact addWrap_atomic items
      (TaskService.createCore z now items title description priority due tags)
  · intro now items task_id status
    unfold TaskService.set_status
    cases hg : TaskRepository.get now items task_id with
    | error e => exact Or.inr rfl
    | ok t =>
      cases hp : parse_status status with
      | error e => simp [hp]
      | ok st =>
        cases hu : TaskRepository.update items { t with status := st } with
        | ok items' => simp [hp, hu, opOk]
        | error e => simp [hp, hu]

/-- **C9.**  `delete` returns `true` exactly when a record with the id
exists (and every such record is removed), returns `false` — raising
nothing — when none exists, leaving the store unchanged in that case;
`delete_task` delegates to the repository unchanged. -/
theorem delete_spec (items : Store) (task_id : Int) :
    ((TaskRepository.delete items task_id).1 = true ↔
      ∃ d ∈ items, d.id = task_id) ∧
    (∀ d ∈ (TaskRepository.delete items task_id).2, d.id ≠ task_id) ∧
    ((TaskRepository.delete items task_id).1 = false →
      (TaskRepository.delete items task_id).2 = items) ∧
    TaskService.delete_task items task_id = TaskRepository.delete items task_id := by
  have key : (TaskRepository.delete items task_id).1 = true ↔
      ¬((items.filter (fun d => !(d.id == task_id))).length = items.length) := by
    simp only [TaskRepository.delete]
    split
    next h => simp [h]
    next h => simp [h]
  have hiff : ¬((items.filter (fun d => !(d.id == task_id))).length =
      items.length) ↔ ∃ d ∈ items, d.id = task_id := by
    rw [List.filter_length_eq_length]
    constructor
    · intro h
      push_neg at h
      obtain ⟨a, ha, hpa⟩ := h
      refine ⟨a, ha, ?_⟩
      simpa using hpa
    · rintro ⟨d, hd, rfl⟩ hall
      have := hall d hd
      simp at this
  refine ⟨key.trans hiff, ?_, ?_, rfl⟩
  · simp only [TaskRepository.delete]
    split
    next h =>
      intro d hd
      have hall := List.filter_length_eq_length.mp h d hd
      simpa using hall
    next h =>
      intro d hd
      have := List.of_mem_filter hd
      simpa using this
  · simp only [TaskRepository.delete]
    split
    next h => intro _; rfl
    next h => intro hfalse; simp at hfalse

/-- Witness for **C9** at a one-record store: an absent id leaves the
store unchanged, a present id reports removal. -/
theorem delete_spec_witness :
    (TaskRepository.delete [taskA.to_dict] 5).2 = [taskA.to_dict] ∧
    (TaskRepository.delete [taskA.to_dict] 1).1 = true :=
  ⟨(delete_spec [taskA.to_dict] 5).2.2.1 rfl,
   (delete_spec [taskA.to_dict] 1).1.mpr ⟨taskA.to_dict, by decide, by decide⟩⟩

/-- One `bumpCount` step on a map seeded over all statuses. -/
theorem bump_status_seeded (g : TaskStatus → Nat) (st : TaskStatus) :
    bumpCount (allStatuses.map (fun s => (s.value, g s))) st.value =
      allStatuses.map (fun s => (s.value, if s = st then g s + 1 else g s)) := by
  cases st <;> simp [bumpCount, allStatuses, TaskStatus.value]

/-- One `bumpCount` step on a map seeded over all priorities. -/
theorem bump_priority_seeded (g : TaskPriority → Nat) (pr : TaskPriority) :
    bumpCount (allPriorities.map (fun p => (p.value, g p))) pr.value =
      allPriorities.map (fun p => (p.value, if p = pr then g p + 1 else g p)) := by
  cases pr <;> simp [bumpCount, allPriorities, TaskPriority.value]

/-- Folding the status counter over the tasks counts each status. -/
theorem foldl_bump_status (tasks : List Task) (g : TaskStatus → Nat) :
    tasks.foldl (fun m t => bumpCount m t.status.value)
        (allStatuses.map (fun s => (s.value, g s))) =
      allStatuses.map (fun s =>
        (s.value, g s + tasks.countP (fun t => decide (t.status = s)))) := by
  induction tasks generalizing g with
  | nil => simp
  | cons t ts ih =>
    rw [List.foldl_cons, bump_status_seeded g t.status,
        ih (fun s => if s = t.status then g s + 1 else g s)]
    cases h : t.status <;>
      simp [allStatuses, List.countP_cons, h, TaskStatus.value] <;> omega

/-- Folding the priority counter over the tasks counts each priority. -/
theorem foldl_bump_priority (tasks : List Task) (g : TaskPriority → Nat) :
    tasks.foldl (fun m t => bumpCount m t.priority.value)
        (allPriorities.map (fun p => (p.value, g p))) =
      allPriorities.map (fun p =>
        (p.value, g p + tasks.countP (fun t => decide (t.priority = p)))) := by
  induction tasks generalizing g with
  | nil => simp
  | cons t ts ih =>
    rw [List.foldl_cons, bump_priority_seeded g t.priority,
        ih (fun p => if p = t.priority then g p + 1 else g p)]
    cases h : t.priority <;>
      simp [allPriorities, List.countP_cons, h, TaskPriority.value] <;> omega

/-- The simultaneous fold of `stats` is the pair of the two single
folds. -/
theorem statsFold_split (tasks : List Task) (m1 m2 : List (String × Nat)) :
    tasks.foldl (fun acc t =>
        (bumpCount acc.1 t.status.value, bumpCount acc.2 t.priority.value))
      (m1, m2) =
      (tasks.foldl (fun m t => bumpCount m t.status.value) m1,
       tasks.foldl (fun m t => bumpCount m t.priority.value) m2) := by
  induction tasks generalizing m1 m2 with
  | nil => rfl
  | cons t ts ih => exact ih _ _

/-- The three statuses partition the tasks. -/
theorem countP_status_partition (tasks : List Task) :
    tasks.countP (fun t => decide (t.status = .PENDING)) +
      tasks.countP (fun t => decide (t.status = .IN_PROGRESS)) +
      tasks.countP (fun t => decide (t.status = .DONE)) = tasks.length := by
  induction tasks with
  | nil => rfl
  | cons t ts ih =>
    cases h : t.status <;> simp [List.countP_cons, h] <;> omega

/-- The three priorities partition the tasks. -/
theorem countP_priority_partition (tasks : List Task) :
    tasks.countP (fun t => decide (t.priority = .LOW)) +
      tasks.countP (fun t => decide (t.priority = .MEDIUM)) +
      tasks.countP (fun t => decide (t.priority = .HIGH)) = tasks.length := by
  induction tasks with
  | nil => rfl
  | cons t ts ih =>
    cases h : t.priority <;> simp [List.countP_cons, h] <;> omega

/-- **C8.**  `stats` reports `total` equal to the number of tasks, its
`by_status`/`by_priority` maps list every enum value (in enum order,
zero included) paired with the number of tasks carrying it — so each
task is counted exactly once per map — and each map's counts sum to
`total`. -/
theorem stats_spec (tasks : List Task) :
    (statsOn tasks).total = tasks.length ∧
    (statsOn tasks).by_status = allStatuses.map (fun s =>
      (s.value, tasks.countP (fun t => decide (t.status = s)))) ∧
    (statsOn tasks).by_priority = allPriorities.map (fun p =>
      (p.value, tasks.countP (fun t => decide (t.priority = p)))) ∧
    ((statsOn tasks).by_status.map Prod.snd).sum = (statsOn tasks).total ∧
    ((statsOn tasks).by_priority.map Prod.snd).sum = (statsOn tasks).total := by
  have hsplit := statsFold_split tasks
    (allStatuses.map (fun s => (s.value, 0)))
    (allPriorities.map (fun p => (p.value, 0)))
  have hs :
      (statsOn tasks).by_status = allStatuses.map (fun s =>
        (s.value, tasks.countP (fun t => decide (t.status = s)))) := by
    simp only [statsOn]
    rw [hsplit]
    simpa using foldl_bump_status tasks (fun _ => 0)
  have hp :
      (statsOn tasks).by_priority = allPriorities.map (fun p =>
        (p.value, tasks.countP (fun t => decide (t.priority = p)))) := by
    simp only [statsOn]
    rw [hsplit]
    simpa using foldl_bump_priority tasks (fun _ => 0)
  have ht : (statsOn tasks).total = tasks.length := rfl
  refine ⟨ht, hs, hp, ?_, ?_⟩
  · rw [hs, ht]
    have := countP_status_partition tasks
    simp [allStatuses]
    omega
  · rw [hp, ht]
    have := countP_priority_partition tasks
    simp [allPriorities]
    omega

/-- `from_dict` never changes the id: a successfully parsed task carries
the record's id. -/
theorem from_dict_id (now : PyDateTime) (d : TaskDict) (t : Task)
    (h : Task.from_dict now d = .ok t) : t.id = d.id := by
  unfold Task.from_dict at h
  cases hs : statusEntry d.status with
  | error e => rw [hs] at h; exact Except.noConfusion h
  | ok s =>
    cases hp : priorityEntry d.priority with
    | error e => simp only [hs, hp] at h; exact Except.noConfusion h
    | ok p =>
      simp only [hs, hp] at h
      split at h <;> (cases h; rfl)

/-- A record sharing the task's id guarantees the `update` scan finds a
slot to replace. -/
theorem updateItems_isSome (task : Task) (items : Store)
    (h : ∃ d ∈ items, d.id = task.id) :
    ∃ items', TaskRepository.updateItems task items = some items' := by
  induction items with
  | nil => rcases h with ⟨d, hd, _⟩; cases hd
  | cons i is ih =>
    by_cases hid : i.id = task.id
    · exact ⟨task.to_dict :: is, by simp [TaskRepository.updateItems, hid]⟩
    · rcases h with ⟨d, hd, hdid⟩
      rcases List.mem_cons.mp hd with rfl | hmem
      · exact absurd hdid hid
      · rcases ih ⟨d, hmem, hdid⟩ with ⟨its, hits⟩
        exact ⟨i :: its, by simp [TaskRepository.updateItems, hid, hits]⟩

/-- **C10.**  For a stored task and a status string that parses,
`set_status` returns (and stores) exactly the original task with only
`status` replaced: id, title, description, priority, tags, created_at
and — for a `DeadlineTask` — `due_date` and the `TYPE` discriminator are
untouched.  Stated for the controller (whose table holds the task) and
for the service (whose store holds a record the task was loaded from);
`complete` is literally `set_status ... DONE`. -/
theorem set_status_frame (m : CtrlTasks) (items : Store) (now : PyDateTime)
    (task_id sid : Int) (raw : String) (t ts : Task) (st : TaskStatus)
    (hc : ctrlLookup m task_id = some t)
    (hp : parse_status (some raw) = .ok st)
    (hg : TaskRepository.get now items sid = .ok ts) :
    (TaskController.set_status m task_id (some raw) =
      (.ok { t with status := st },
       ctrlInsert m ({ t with status := st }).id { t with status := st })) ∧
    (TaskService.set_status now items sid (some raw)).1 =
      .ok { ts with status := st } ∧
    ({ t with status := st }).id = t.id ∧
    ({ t with status := st }).title = t.title ∧
    ({ t with status := st }).description = t.description ∧
    ({ t with status := st }).priority = t.priority ∧
    ({ t with status := st }).tags = t.tags ∧
    ({ t with status := st }).created_at = t.created_at ∧
    ({ t with status := st }).due_date = t.due_date ∧
    ({ t with status := st }).TYPE = t.TYPE ∧
    (∀ (m' : CtrlTasks) (id' : Int),
      TaskController.complete m' id' =
        TaskController.set_status m' id' (some "DONE")) := by
  have hctrl : TaskController.set_status m task_id (some raw) =
      (.ok { t with status := st },
       ctrlInsert m ({ t with status := st }).id { t with status := st }) := by
    unfold TaskController.set_status
    rw [hc, hp]
  have hsvc : (TaskService.set_status now items sid (some raw)).1 =
      .ok { ts with status := st } := by
    -- the record `get` found shares the task's id, so the update succeeds
    have hfind : ∃ d, items.find? (fun d => d.id == sid) = some d ∧
        Task.from_dict now d = .ok ts := by
      unfold TaskRepository.get at hg
      cases hf : items.find? (fun d => d.id == sid) with
      | none => rw [hf] at hg; cases hg
      | some d => rw [hf] at hg; exact ⟨d, rfl, hg⟩
    rcases hfind with ⟨d, hf, hfd⟩
    have hmem : d ∈ items := List.mem_of_find?_eq_some hf
    have hts : ts.id = d.id := from_dict_id now d ts hfd
    have hex : ∃ d' ∈ items, d'.id = ({ ts with status := st } : Task).id := by
      exact ⟨d, hmem, by simp [hts]⟩
    rcases updateItems_isSome { ts with status := st } items hex with ⟨its, hits⟩
    have hupd : TaskRepository.update items { ts with status := st } = .ok its := by
      unfold TaskRepository.update
      rw [hits]
    unfold TaskService.set_status
    simp only [hg, hp, hupd]
  have hcmpl : ∀ (m' : CtrlTasks) (id' : Int),
      TaskController.complete m' id' =
        TaskController.set_status m' id' (some "DONE") := fun _ _ => rfl
  exact ⟨hctrl, hsvc, rfl, rfl, rfl, rfl, rfl, rfl, rfl, rfl, hcmpl⟩

/-- A well-formed serialized record (hand-written: the code's own
serializer would have written the status as `"TaskStatus.PENDING"`,
which `from_dict` rejects — see C2). -/
def dictGood : TaskDict :=
  { id := 2, title := "g", description := none, status := some "PENDING",
    priority := some "HIGH", tags := ["x"],
    created_at := some { wallSec := 0, off := 0 }, TYPE := "DeadlineTask",
    type := some "DeadlineTask", due_date := some { wallSec := 1000000, off := 0 } }

/-- The task `dictGood` deserializes to. -/
def taskGood : Task :=
  { id := 2, title := "g", description := none, status := .PENDING,
    priority := .HIGH, tags := ["x"], created_at := { wall := 0, off := 0 },
    due_date := some { wall := 1000000, off := 0 } }

/-- Witness for **C10** on a deadline task, via both layers. -/
theorem set_status_frame_witness :
    (TaskService.set_status dt0 [dictGood] 2 (some "done")).1 =
      .ok { taskGood with status := .DONE } ∧
    ({ taskGood with status := .DONE }).due_date = taskGood.due_date ∧
    ({ taskGood with status := .DONE }).TYPE = taskGood.TYPE := by
  have h := set_status_frame [(2, taskGood)] [dictGood] dt0 2 2 "done" taskGood
    taskGood .DONE rfl rfl rfl
  exact ⟨h.2.1, h.2.2.2.2.2.2.2.2.1, h.2.2.2.2.2.2.2.2.2.1⟩

/-- The status stage only drops tasks, and—when the filter is active—
keeps exactly the tasks whose status equals the parsed one. -/
theorem statusStage_ok (status : Option String) (tasks l : List Task)
    (h : statusStage status tasks = .ok l) :
    (∀ t ∈ l, t ∈ tasks) ∧
    (∀ t ∈ l, ∀ s, status = some s → s ≠ "" →
      ∃ st, parse_status (some s) = .ok st ∧ t.status = st) := by
  cases status with
  | none =>
    cases h
    exact ⟨fun t ht => ht, by rintro t ht s hs; cases hs⟩
  | some s =>
    by_cases hs : s = ""
    · subst hs
      simp only [statusStage, if_pos rfl] at h
      cases h
      refine ⟨fun t ht => ht, ?_⟩
      rintro t ht s' hs' hne
      cases hs'
      exact absurd rfl hne
    · simp only [statusStage, if_neg hs] at h
      cases hp : parse_status (some s) with
      | error e => rw [hp] at h; cases h
      | ok st =>
        rw [hp] at h
        cases h
        refine ⟨fun t ht => (List.mem_filter.mp ht).1, ?_⟩
        rintro t ht s' hs' hne
        cases hs'
        refine ⟨st, hp, ?_⟩
        have := (List.mem_filter.mp ht).2
        simpa using this

/-- The priority stage, likewise. -/
theorem priorityStage_ok (priority : Option String) (tasks l : List Task)
    (h : priorityStage priority tasks = .ok l) :
    (∀ t ∈ l, t ∈ tasks) ∧
    (∀ t ∈ l, ∀ s, priority = some s → s ≠ "" →
      ∃ pr, parse_priority (some s) = .ok pr ∧ t.priority = pr) := by
  cases priority with
  | none =>
    cases h
    exact ⟨fun t ht => ht, by rintro t ht s hs; cases hs⟩
  | some s =>
    by_cases hs : s = ""
    · subst hs
      simp only [priorityStage, if_pos rfl] at h
      cases h
      refine ⟨fun t ht => ht, ?_⟩
      rintro t ht s' hs' hne
      cases hs'
      exact absurd rfl hne
    · simp only [priorityStage, if_neg hs] at h
      cases hp : parse_priority (some s) with
      | error e => rw [hp] at h; cases h
      | ok pr =>
        rw [hp] at h
        cases h
        refine ⟨fun t ht => (List.mem_filter.mp ht).1, ?_⟩
        rintro t ht s' hs' hne
        cases hs'
        refine ⟨pr, hp, ?_⟩
        have := (List.mem_filter.mp ht).2
        simpa using this

/-- The tag stage, likewise (it never fails). -/
theorem tagStage_spec (tag : Option String) (tasks : List Task) :
    (∀ t ∈ tagStage tag tasks, t ∈ tasks) ∧
    (∀ t ∈ tagStage tag tasks, ∀ s, tag = some s → s ≠ "" →
      t.tags.contains s = true) := by
  cases tag with
  | none => exact ⟨fun t ht => ht, by rintro t ht s hs; cases hs⟩
  | some s =>
    by_cases hs : s = ""
    · refine ⟨?_, ?_⟩ <;> simp only [tagStage, if_pos hs]
      · exact fun t ht => ht
      · rintro t ht s' hs' hne
        cases hs'
        exact absurd hs hne
    · refine ⟨?_, ?_⟩ <;> simp only [tagStage, if_neg hs]
      · exact fun t ht => (List.mem_filter.mp ht).1
      · rintro t ht s' hs' hne
        cases hs'
        exact (List.mem_filter.mp ht).2

/-- The search stage, likewise. -/
theorem searchStage_spec (search : Option String) (tasks : List Task) :
    (∀ t ∈ searchStage search tasks, t ∈ tasks) ∧
    (∀ t ∈ searchStage search tasks, ∀ s, search = some s → s ≠ "" →
      searchPred (pyLower s) t = true) := by
  cases search with
  | none => exact ⟨fun t ht => ht, by rintro t ht s hs; cases hs⟩
  | some s =>
    by_cases hs : s = ""
    · refine ⟨?_, ?_⟩ <;> simp only [searchStage, if_pos hs]
      · exact fun t ht => ht
      · rintro t ht s' hs' hne
        cases hs'
        exact absurd hs hne
    · refine ⟨?_, ?_⟩ <;> simp only [searchStage, if_neg hs]
      · exact fun t ht => (List.mem_filter.mp ht).1
      · rintro t ht s' hs' hne
        cases hs'
        exact (List.mem_filter.mp ht).2

/-- The overdue stage, likewise. -/
theorem overdueStage_spec (now : PyDateTime) (overdue : Bool)
    (tasks : List Task) :
    (∀ t ∈ overdueStage now overdue tasks, t ∈ tasks) ∧
    (∀ t ∈ overdueStage now overdue tasks, overdue = true →
      overduePred now t = true) := by
  cases overdue with
  | false => exact ⟨fun t ht => ht, by rintro t ht hs; cases hs⟩
  | true =>
    refine ⟨?_, ?_⟩ <;> simp only [overdueStage, if_pos rfl]
    · exact fun t ht => (List.mem_filter.mp ht).1
    · exact fun t ht _ => (List.mem_filter.mp ht).2

/-- Sorting only reorders: membership in an `applySort` result is
membership in its input. -/
theorem applySort_mem (tasks l : List Task) (sort : Option String)
    (h : applySort tasks sort = .ok l) : ∀ t, t ∈ l ↔ t ∈ tasks := by
  cases sort with
  | none => cases h; intro t; exact Iff.rfl
  | some s =>
    simp only [applySort] at h
    by_cases hs : s = ""
    · rw [if_pos hs] at h; cases h; intro t; exact Iff.rfl
    · rw [if_neg hs] at h
      split_ifs at h <;> cases h <;> (intro t; exact List.mem_mergeSort)

/-- **C5.**  For every stored task set and every combination of supplied
filters (and any sort), a successful `list` returns only tasks of the
stored set, and every returned task satisfies every supplied filter
predicate: status equality, priority equality, literal tag membership,
case-insensitive substring match against title or description, and the
overdue condition. -/
theorem list_filters_sound (now : PyDateTime) (tasks : List Task)
    (status priority tag : Option String) (overdue : Bool)
    (search sort : Option String) (r : List Task)
    (h : listTasksOn now tasks status priority tag overdue search sort = .ok r) :
    ∀ t ∈ r, t ∈ tasks ∧
      (∀ s, status = some s → s ≠ "" →
        ∃ st, parse_status (some s) = .ok st ∧ t.status = st) ∧
      (∀ s, priority = some s → s ≠ "" →
        ∃ pr, parse_priority (some s) = .ok pr ∧ t.priority = pr) ∧
      (∀ s, tag = some s → s ≠ "" → t.tags.contains s = true) ∧
      (∀ s, search = some s → s ≠ "" → searchPred (pyLower s) t = true) ∧
      (overdue = true → overduePred now t = true) := by
  unfold listTasksOn at h
  cases h1 : applyFilters now status priority tag search overdue tasks with
  | error e => rw [h1] at h; cases h
  | ok fl =>
    rw [h1] at h
    have hmem := applySort_mem fl r sort h
    unfold applyFilters at h1
    cases h2 : statusStage status tasks with
    | error e => rw [h2] at h1; cases h1
    | ok l1 =>
      simp only [h2] at h1
      cases h3 : priorityStage priority l1 with
      | error e => simp only [h3] at h1; exact Except.noConfusion h1
      | ok l2 =>
        simp only [h3] at h1
        cases h1
        intro t ht
        have htf : t ∈ overdueStage now overdue (searchStage search (tagStage tag l2)) :=
          (hmem t).mp ht
        have hod := overdueStage_spec now overdue (searchStage search (tagStage tag l2))
        have hse := searchStage_spec search (tagStage tag l2)
        have hta := tagStage_spec tag l2
        have hpr := priorityStage_ok priority l1 l2 h3
        have hst := statusStage_ok status tasks l1 h2
        have ht2 : t ∈ searchStage search (tagStage tag l2) := hod.1 t htf
        have ht3 : t ∈ tagStage tag l2 := hse.1 t ht2
        have ht4 : t ∈ l2 := hta.1 t ht3
        have ht5 : t ∈ l1 := hpr.1 t ht4
        exact ⟨hst.1 t ht5, hst.2 t ht5, hpr.2 t ht4, hta.2 t ht3,
          hse.2 t ht2, hod.2 t htf⟩

/-- Witness for **C5**: a status filter plus a tag filter on a two-task
collection keeps exactly the matching task, which satisfies both
predicates. -/
theorem list_filters_sound_witness :
    taskGood ∈ [taskA, taskGood] ∧
    taskGood.tags.contains "x" = true ∧
    taskGood.status = TaskStatus.PENDING := by
  have h := list_filters_sound dt0 [taskA, taskGood] (some "pending") none
    (some "x") false none none [taskGood] rfl taskGood (by decide)
  refine ⟨h.1, h.2.2.2.1 "x" rfl (by decide), ?_⟩
  rcases h.2.1 "pending" rfl (by decide) with ⟨st, hst, hts⟩
  cases hst
  exact hts

/-- Tasks inserted with priorities [LOW, HIGH, MEDIUM, HIGH] (C6). -/
def taskLow : Task := { id := 1, title := "t1", priority := .LOW, created_at := dt0 }

/-- Second of the four C6 tasks. -/
def taskHigh1 : Task := { id := 2, title := "t2", priority := .HIGH, created_at := dt0 }

/-- Third of the four C6 tasks. -/
def taskMed : Task := { id := 3, title := "t3", priority := .MEDIUM, created_at := dt0 }

/-- Fourth of the four C6 tasks. -/
def taskHigh2 : Task := { id := 4, title := "t4", priority := .HIGH, created_at := dt0 }

/-- The priority-sort relation is transitive. -/
theorem prioLE_trans (a b c : Task)
    (hab : (!decide (priorityRank b.priority < priorityRank a.priority)) = true)
    (hbc : (!decide (priorityRank c.priority < priorityRank b.priority)) = true) :
    (!decide (priorityRank c.priority < priorityRank a.priority)) = true := by
  simp only [Bool.not_eq_true', decide_eq_false_iff_not, Nat.not_lt] at *
  omega

/-- The priority-sort relation is total. -/
theorem prioLE_total (a b : Task) :
    ((!decide (priorityRank b.priority < priorityRank a.priority)) ||
      (!decide (priorityRank a.priority < priorityRank b.priority))) = true := by
  simp only [Bool.or_eq_true, Bool.not_eq_true', decide_eq_false_iff_not,
    Nat.not_lt]
  omega

unseal List.mergeSort List.merge

/-- **C6.**  Sorting by `priority` yields a permutation ordered HIGH
first, then MEDIUM, then LOW, and is stable: a pair in original order
whose ranks are non-decreasing (in particular, of equal priority) stays
in that order; on tasks inserted with priorities [LOW, HIGH, MEDIUM,
HIGH] the result is [HIGH, HIGH, MEDIUM, LOW] with the two HIGH tasks in
their original relative order. -/
theorem priority_sort_spec (now : PyDateTime) (tasks r : List Task)
    (h : listTasksOn now tasks none none none false none (some "priority") =
      .ok r) :
    List.Perm r tasks ∧
    List.Pairwise (fun a b : Task =>
      priorityRank a.priority ≤ priorityRank b.priority) r ∧
    (∀ a b : Task, List.Sublist [a, b] tasks →
      priorityRank a.priority ≤ priorityRank b.priority →
      List.Sublist [a, b] r) ∧
    listTasksOn dt0 [taskLow, taskHigh1, taskMed, taskHigh2] none none none
        false none (some "priority") =
      .ok [taskHigh1, taskHigh2, taskMed, taskLow] := by
  have hr : r = tasks.mergeSort
      (fun a b => !decide (priorityRank b.priority < priorityRank a.priority)) := by
    have h' : Except.ok (tasks.mergeSort
        (fun a b => !decide (priorityRank b.priority < priorityRank a.priority))) =
        (Except.ok r : Except PyErr (List Task)) := h
    exact (Except.ok.inj h').symm
  subst hr
  have hsorted := List.sorted_mergeSort prioLE_trans prioLE_total tasks
  refine ⟨List.mergeSort_perm tasks _, ?_, ?_, rfl⟩
  · refine hsorted.imp ?_
    intro a b hab
    simpa [Nat.not_lt] using hab
  · intro a b hsub hle
    refine List.pair_sublist_mergeSort prioLE_trans prioLE_total ?_ hsub
    simpa [Nat.not_lt] using hle

/-- Witness for **C6** at the four-task example. -/
theorem priority_sort_spec_witness :
    List.Perm [taskHigh1, taskHigh2, taskMed, taskLow]
      [taskLow, taskHigh1, taskMed, taskHigh2] :=
  (priority_sort_spec dt0 [taskLow, taskHigh1, taskMed, taskHigh2]
    [taskHigh1, taskHigh2, taskMed, taskLow] rfl).1

/-- An undated task (C7). -/
def taskU : Task := { id := 1, title := "u", created_at := dt0 }

/-- A task due exactly at `datetime.max` with the same offset (C7). -/
def taskDMax : Task :=
  { id := 2, title := "d", created_at := dt0,
    due_date := some { wall := pyDatetimeMaxWall, off := 0 } }

/-- A task with an ordinary due date (C7 witness). -/
def taskD1 : Task :=
  { id := 3, title := "e", created_at := dt0,
    due_date := some { wall := 1000000, off := 0 } }

/-- **C7 (counterexample).**  Claimed: sorting by `due` places every
task without a due date after every task with one.  A due date of
exactly `datetime.max` (reachable, e.g. via
`fromisoformat("9999-12-31T23:59:59.999999")`) ties with the undated
key `datetime.max.replace(tzinfo=...)`, and the stable sort then keeps
the undated task *before* the dated one. -/
theorem due_sort_undated_not_last :
    listTasksOn dt0 [taskU, taskDMax] none none none false none (some "due") =
      .ok [taskU, taskDMax] ∧
    taskU.due_date = none ∧
    taskDMax.due_date = some { wall := pyDatetimeMaxWall, off := 0 } :=
  ⟨rfl, rfl, rfl⟩

/-- All timestamps of the task carry offset `z` and its due date, if
any, is strictly before `datetime.max`: the regime in which an undated
task's sort key exceeds every real due key. -/
def dueSortRegular (z : Int) (t : Task) : Bool :=
  t.created_at.off == z &&
    (match t.due_date with
     | some d => d.off == z && decide (d.wall < pyDatetimeMaxWall)
     | none => true)

/-- The due-sort relation is transitive. -/
theorem dueLE_trans (a b c : Task)
    (hab : (!PyDateTime.ltb (dueKey b) (dueKey a)) = true)
    (hbc : (!PyDateTime.ltb (dueKey c) (dueKey b)) = true) :
    (!PyDateTime.ltb (dueKey c) (dueKey a)) = true := by
  simp only [PyDateTime.ltb, PyDateTime.instant, Bool.not_eq_true',
    decide_eq_false_iff_not, not_lt] at *
  omega

/-- The due-sort relation is total. -/
theorem dueLE_total (a b : Task) :
    ((!PyDateTime.ltb (dueKey b) (dueKey a)) ||
      (!PyDateTime.ltb (dueKey a) (dueKey b))) = true := by
  simp only [PyDateTime.ltb, PyDateTime.instant, Bool.or_eq_true,
    Bool.not_eq_true', decide_eq_false_iff_not, not_lt]
  omega

/-- **C7 (amended).**  Sorting by `due` permutes the tasks into
ascending due-key order; when every timestamp carries one offset `z` and
every due date is strictly before `datetime.max`, every task without a
due date is placed after every task with one, and dated tasks appear in
ascending due-date order.  (At the boundary — a due date exactly at
`datetime.max` — an undated task ties with it and keeps its original
position, see the counterexample.) -/
theorem due_sort_spec (now : PyDateTime) (z : Int) (tasks r : List Task)
    (hreg : ∀ t ∈ tasks, dueSortRegular z t = true)
    (h : listTasksOn now tasks none none none false none (some "due") = .ok r) :
    List.Perm r tasks ∧
    List.Pairwise (fun a b : Task =>
      ¬(a.due_date = none ∧ b.due_date ≠ none)) r ∧
    List.Pairwise (fun a b : Task => ∀ da db, a.due_date = some da →
      b.due_date = some db → da.instant ≤ db.instant) r := by
  have hr : r = tasks.mergeSort
      (fun a b => !PyDateTime.ltb (dueKey b) (dueKey a)) := by
    have h' : Except.ok (tasks.mergeSort
        (fun a b => !PyDateTime.ltb (dueKey b) (dueKey a))) =
        (Except.ok r : Except PyErr (List Task)) := h
    exact (Except.ok.inj h').symm
  subst hr
  have hsorted := List.sorted_mergeSort dueLE_trans dueLE_total tasks
  refine ⟨List.mergeSort_perm tasks _, ?_, ?_⟩
  · refine hsorted.imp_of_mem ?_
    intro a b ha hb hab
    have ha' := hreg a (List.mem_mergeSort.mp ha)
    have hb' := hreg b (List.mem_mergeSort.mp hb)
    rintro ⟨hanone, hbsome⟩
    cases hdb : b.due_date with
    | none => exact hbsome hdb
    | some db =>
      simp only [dueSortRegular, hanone, Bool.and_eq_true, beq_iff_eq] at ha'
      simp only [dueSortRegular, hdb, Bool.and_eq_true, beq_iff_eq,
        decide_eq_true_eq] at hb'
      simp only [dueKey, hanone, hdb, PyDateTime.ltb, PyDateTime.instant,
        Bool.not_eq_true', decide_eq_false_iff_not, not_lt] at hab
      omega
  · refine hsorted.imp ?_
    intro a b hab da db hda hdb
    simp only [dueKey, hda, hdb, PyDateTime.ltb, PyDateTime.instant,
      Bool.not_eq_true', decide_eq_false_iff_not, not_lt] at hab
    simp only [PyDateTime.instant]
    omega

/-- Witness for **C7 (amended)**: a dated and an undated task are
reordered dated-first. -/
theorem due_sort_spec_witness :
    List.Perm [taskD1, taskU] [taskU, taskD1] :=
  (due_sort_spec dt0 0 [taskU, taskD1] [taskD1, taskU] (by decide) rfl).1

end Todo
